import Mathlib

/-!
Verification of the muonic DAQ connection/provider layer.

Shallow embedding of:
  * `muonic/daq/provider.py` — `BaseDAQProvider.LINE_PATTERN`,
    `BaseDAQProvider._validate_line`, `DAQProvider.get/put`;
  * `muonicPro/daq/api/connection.py` — `BaseDAQConnection.get_serial_port`,
    `DAQConnection.read/write`, `DAQServer.serve/read/write`.

Strings are embedded as `List Char`; the multiprocessing queues as Lean
lists used FIFO (enqueue at the tail, dequeue at the head); the float
sleep intervals as exact rationals (the source only halves, multiplies by
1.5, and clamps, so the rational model tracks the float model's bounds);
raised exceptions as `Except` values.
-/

namespace Muonic

/-! ## Character grammar of `BaseDAQProvider.LINE_PATTERN`

The source pattern is `^[a-zA-Z0-9+-.,:()=$/#?!%_@*|~' ]*[\n\r]*$`.
Inside the character class, `+-.` is a range from `+` (0x2B) to `.`
(0x2E), i.e. the four characters `+ , - .`; the embedding keeps that
range literally.  `Char.ofNat 39` is the apostrophe character. -/

def isAllowedChar (c : Char) : Bool :=
  ('a' ≤ c && c ≤ 'z') || ('A' ≤ c && c ≤ 'Z') || ('0' ≤ c && c ≤ '9') ||
  ('+' ≤ c && c ≤ '.') ||
  c = ',' || c = ':' || c = '(' || c = ')' || c = '=' || c = '$' ||
  c = '/' || c = '#' || c = '?' || c = '!' || c = '%' || c = '_' ||
  c = '@' || c = '*' || c = '|' || c = '~' || c = Char.ofNat 39 || c = ' '

/-- The trailing `[\n\r]*` part of the pattern. -/
def isCRLF (c : Char) : Bool :=
  c = '\n' || c = '\r'

/-- `LINE_PATTERN.match line is not None`: the anchored regular expression
`^[allowed]*[\n\r]*$` accepts exactly the strings consisting of a block of
allowed characters followed by a block of CR/LF characters.  Since no
allowed character is CR or LF, this is equivalent to: after removing the
maximal allowed prefix, only CR/LF characters remain. -/
def line_pattern_match (l : List Char) : Bool :=
  (l.dropWhile isAllowedChar).all isCRLF

/-- `line.rstrip('\r\n')` from the warning message of `_validate_line`. -/
def rstrip_crlf (l : List Char) : List Char :=
  (l.reverse.dropWhile isCRLF).reverse

/-- `BaseDAQProvider._validate_line`: returns the line unchanged when the
pattern matches, otherwise logs one warning (second component: the list of
warning messages emitted by the call) and returns `none`. -/
def validate_line (l : List Char) : Option (List Char) × List (List Char) :=
  if line_pattern_match l then (some l, [])
  else (none, [rstrip_crlf l])

/-! ## The reader loop of `DAQConnection.read`

Each iteration of `while self.running:` either drains all pending serial
lines (`serial_port.inWaiting()` truthy), pushing
`serial_port.readline().strip().decode()` for each and halving the sleep
interval, or multiplies the interval by 1.5; `(IOError, OSError)` raised
inside the `try` block is caught: the error is logged, the port closed and
reacquired via `get_serial_port`.  The serial environment of one iteration
is abstracted as a `SerialEvent`. -/

/-- Python `bytes.strip()` with no argument removes the ASCII whitespace
characters `\t \n \x0b \x0c \r` and space from both ends. -/
def isPyWhitespace (c : Char) : Bool :=
  c = ' ' || c = '\t' || c = '\n' || c = '\r' || c = '\x0b' || c = '\x0c'

/-- `raw.strip()` for a raw `readline()` result: drop whitespace from the
front, then from the back. -/
def bytes_strip (l : List Char) : List Char :=
  ((l.dropWhile isPyWhitespace).reverse.dropWhile isPyWhitespace).reverse

/-- `min_sleep_time = 0.01` seconds (10 ms), exact rational model. -/
def min_sleep_time : ℚ := 1 / 100

/-- `max_sleep_time = 0.2` seconds (200 ms), exact rational model. -/
def max_sleep_time : ℚ := 1 / 5

/-- What the serial link does during one loop iteration: some complete
lines are pending, nothing is pending, or the read raises
`IOError`/`OSError`. -/
inductive SerialEvent
  | pending (lines : List (List Char))
  | idle
  | ioFault
deriving DecidableEq

/-- Observable state of the `DAQConnection.read` process: the running
flag, the current sleep interval, the outbound queue contents, the number
of `logger.error` calls, the number of times the port was reacquired, and
whether the port is open. -/
structure ReadState where
  running : Bool
  sleep_time : ℚ
  out_queue : List (List Char)
  error_log : Nat
  link_gen : Nat
  link_open : Bool
deriving DecidableEq

/-- State at the start of `DAQConnection.read`: `sleep_time` is
initialised to `min_sleep_time`. -/
def read_init : ReadState :=
  { running := true, sleep_time := min_sleep_time, out_queue := [],
    error_log := 0, link_gen := 0, link_open := true }

/-- The `try`-block of one iteration of `DAQConnection.read`; a raised
`IOError`/`OSError` is an `Except.error`. -/
def read_body (ev : SerialEvent) (s : ReadState) : Except Unit ReadState :=
  match ev with
  | .pending lines =>
      .ok { s with out_queue := s.out_queue ++ lines.map bytes_strip,
                   sleep_time := max (s.sleep_time / 2) min_sleep_time }
  | .idle =>
      .ok { s with sleep_time := min (3 / 2 * s.sleep_time) max_sleep_time }
  | .ioFault => .error ()

/-- The `except (IOError, OSError)` handler: log the error, close the
port, reacquire it with `get_serial_port` (generation counter bumps, port
open again). -/
def read_recover (s : ReadState) : ReadState :=
  { s with error_log := s.error_log + 1, link_gen := s.link_gen + 1,
           link_open := true }

/-- One full iteration of `DAQConnection.read`: run the body, catching the
I/O fault with the handler.  Total by construction: no exception escapes. -/
def read_iter (ev : SerialEvent) (s : ReadState) : ReadState :=
  match read_body ev s with
  | .ok s' => s'
  | .error _ => read_recover s

/-- `while self.running:` over a finite schedule of serial events. -/
def read_run (evs : List SerialEvent) (s : ReadState) : ReadState :=
  evs.foldl (fun t ev => if t.running then read_iter ev t else t) s

/-! ## `DAQProvider.put` and the drain loop of `DAQConnection.write`

`put(*args)` enqueues on `in_queue`; the writer's inner loop
`while self.in_queue.qsize():` pops each command and performs
`serial_port.write((str(cmd) + "\r").encode())`. -/

/-- `DAQProvider.put`: enqueue one command (FIFO: tail of the list). -/
def put (q : List (List Char)) (c : List Char) : List (List Char) :=
  q ++ [c]

/-- Enqueue a batch of commands in order. -/
def put_all (cs : List (List Char)) (q : List (List Char)) : List (List Char) :=
  cs.foldl put q

/-- The inner drain loop of `DAQConnection.write`: the list of byte
strings handed to `serial_port.write`, in order; each command gets a
single trailing CR. -/
def write_drain : List (List Char) → List (List Char)
  | [] => []
  | c :: rest => (c ++ ['\r']) :: write_drain rest

/-! ## `DAQProvider.get`

`get(*args)` pops `out_queue` (the non-blocking/timeout path raises
`queue.Empty` on an empty queue, turned into `DAQIOError("Queue is
empty")`), then returns `_validate_line(line)`.  The embedding returns the
validation outcome together with the remaining queue. -/

/-- `DAQProvider.get` on the non-blocking path. -/
def get (q : List (List Char)) :
    Except String (Option (List Char) × List (List Char)) :=
  match q with
  | [] => .error "Queue is empty"
  | l :: rest => .ok ((validate_line l).1, rest)

/-! ## `BaseDAQConnection.get_serial_port`

The loop first resolves the device path: `get_dev_path("which_tty_daq")`
raises `OSError` when the binary is not on the search path; the handler
falls back to the packaged `../../bin/which_tty_daq` and raises
`OSError("Can not find binary which_tty_daq")` — uncaught, aborting the
loop — when that file does not exist either.  Opening `serial.Serial(...)`
may raise `serial.SerialException`, which is logged followed by
`sleep(5)` and another full loop iteration. -/

/-- Environment of the acquisition loop: whether the discovery hook is on
the search path, whether the packaged fallback exists, and whether the
`n`-th attempt to open the resolved device succeeds. -/
structure AcqEnv where
  hook_on_path : Bool
  fallback_exists : Bool
  open_ok : Nat → Bool

/-- Outcome of running the acquisition loop on bounded fuel, recording how
many 5-second pauses were slept: `fatal` is the uncaught `OSError`,
`connected` a successful open at the given attempt, `exhausted` means the
loop was still retrying when the fuel ran out. -/
inductive AcqOutcome
  | fatal (sleeps5 : Nat)
  | connected (attempt : Nat) (sleeps5 : Nat)
  | exhausted (sleeps5 : Nat)
deriving DecidableEq

/-- `get_serial_port` as a fuel-indexed loop; `n` is the attempt index and
`k` the number of 5-second pauses slept so far. -/
def get_serial_port (env : AcqEnv) : Nat → Nat → Nat → AcqOutcome
  | 0, _, k => .exhausted k
  | fuel + 1, n, k =>
      if env.hook_on_path || env.fallback_exists then
        if env.open_ok n then .connected n k
        else get_serial_port env fuel (n + 1) (k + 1)
      else .fatal k

/-! ## `DAQServer`

`serve` is `while True: self.read(); self.write()`.  But `DAQServer.read`
is itself `while self.running:` — the same endless loop as
`DAQConnection.read`, sending each drained line on the zmq socket — and
`DAQServer.write` is `while self.running:` around a blocking
`socket.recv_string()` followed by `serial_port.write((msg + "\r").encode())`. -/

/-- Observable state of the server: running flag, sleep interval, the
messages sent on the socket, the received socket messages not yet
consumed, the byte strings written to the serial port, error log and link
generation. -/
structure ServerState where
  running : Bool
  sleep_time : ℚ
  socket_out : List (List Char)
  socket_in : List (List Char)
  serial_writes : List (List Char)
  error_log : Nat
  link_gen : Nat
deriving DecidableEq

/-- Server state at construction. -/
def server_init : ServerState :=
  { running := true, sleep_time := min_sleep_time, socket_out := [],
    socket_in := [], serial_writes := [], error_log := 0, link_gen := 0 }

/-- One iteration of the `DAQServer.read` loop body (with its
`except (IOError, OSError)` handler already folded in, as in
`read_iter`). -/
def server_read_iter (ev : SerialEvent) (s : ServerState) : ServerState :=
  match ev with
  | .pending lines =>
      { s with socket_out := s.socket_out ++ lines.map bytes_strip,
               sleep_time := max (s.sleep_time / 2) min_sleep_time }
  | .idle => { s with sleep_time := min (3 / 2 * s.sleep_time) max_sleep_time }
  | .ioFault => { s with error_log := s.error_log + 1, link_gen := s.link_gen + 1 }

/-- `DAQServer.read`: `while self.running:` as a fuel-indexed loop; `none`
means the fuel ran out with the loop still running (the function has not
returned). -/
def server_read (env : Nat → SerialEvent) :
    Nat → Nat → ServerState → Option ServerState
  | 0, _, _ => none
  | fuel + 1, i, s =>
      if s.running then server_read env fuel (i + 1) (server_read_iter (env i) s)
      else some s

/-- The server state after the first `n` iterations of `DAQServer.read`. -/
def server_read_steps (env : Nat → SerialEvent) :
    Nat → Nat → ServerState → ServerState
  | 0, _, s => s
  | n + 1, i, s =>
      if s.running then
        server_read_steps env n (i + 1) (server_read_iter (env i) s)
      else s

/-- One iteration of the `DAQServer.write` loop body: receive one socket
message and write it CR-terminated to the serial port. -/
def server_write_iter (s : ServerState) : ServerState :=
  match s.socket_in with
  | [] => s
  | m :: rest =>
      { s with socket_in := rest,
               serial_writes := s.serial_writes ++ [m ++ ['\r']] }

/-- `DAQServer.write`: `while self.running:` as a fuel-indexed loop. -/
def server_write : Nat → ServerState → Option ServerState
  | 0, _ => none
  | fuel + 1, s =>
      if s.running then server_write fuel (server_write_iter s)
      else some s

/-- `DAQServer.serve`: `while True: self.read(); self.write()` on bounded
fuel; `none` means some inner loop had not yet returned when the fuel ran
out. -/
def serve (env : Nat → SerialEvent) : Nat → Nat → ServerState → Option ServerState
  | 0, _, _ => none
  | fuel + 1, i, s =>
      match server_read env fuel i s with
      | none => none
      | some s₁ =>
          match server_write fuel s₁ with
          | none => none
          | some s₂ => serve env fuel i s₂

/-! ### Basic facts about the grammar -/

theorem isCRLF_not_allowed {c : Char} (h : isCRLF c = true) :
    isAllowedChar c = false := by
  rcases Bool.or_eq_true_iff.1 h with h' | h' <;>
    simp only [decide_eq_true_eq] at h' <;> subst h' <;> decide

theorem isAllowedChar_not_crlf {c : Char} (h : isAllowedChar c = true) :
    isCRLF c = false := by
  cases hc : isCRLF c with
  | false => rfl
  | true => rw [isCRLF_not_allowed hc] at h; exact absurd h (by simp)

theorem dropWhile_append_of_all {p : Char → Bool} {a : List Char}
    (b : List Char) (ha : ∀ c ∈ a, p c = true) :
    (a ++ b).dropWhile p = b.dropWhile p := by
  induction a with
  | nil => rfl
  | cons x xs ih =>
      have hx : p x = true := ha x (List.mem_cons_self x xs)
      simp only [List.cons_append, List.dropWhile_cons, hx, if_true]
      exact ih fun c hc => ha c (List.mem_cons_of_mem x hc)

theorem dropWhile_of_head_false {p : Char → Bool} {b : List Char}
    (hb : ∀ c ∈ b, p c = false) : b.dropWhile p = b := by
  cases b with
  | nil => rfl
  | cons x xs =>
      simp only [List.dropWhile_cons, hb x (List.mem_cons_self x xs)]
      simp

/-- Characterization of the regular expression as an explicit split. -/
theorem line_pattern_match_iff (l : List Char) :
    line_pattern_match l = true ↔
      ∃ a b, l = a ++ b ∧ (∀ c ∈ a, isAllowedChar c = true) ∧
        (∀ c ∈ b, isCRLF c = true) := by
  constructor
  · intro h
    refine ⟨l.takeWhile isAllowedChar, l.dropWhile isAllowedChar,
      (List.takeWhile_append_dropWhile ..).symm,
      fun c hc => List.mem_takeWhile_imp hc, ?_⟩
    exact fun c hc => List.all_eq_true.1 h c hc
  · rintro ⟨a, b, rfl, ha, hb⟩
    unfold line_pattern_match
    rw [dropWhile_append_of_all b ha,
      dropWhile_of_head_false fun c hc => isCRLF_not_allowed (hb c hc)]
    exact List.all_eq_true.2 hb

theorem rstrip_crlf_append_crlf {b : List Char} (a : List Char)
    (hb : ∀ c ∈ b, isCRLF c = true) :
    rstrip_crlf (a ++ b) = rstrip_crlf a := by
  unfold rstrip_crlf
  rw [List.reverse_append,
    dropWhile_append_of_all a.reverse fun c hc => hb c (List.mem_reverse.1 hc)]

/-- Splitting any list at its maximal CR/LF suffix. -/
theorem rstrip_crlf_split (l : List Char) :
    l = rstrip_crlf l ++ (l.reverse.takeWhile isCRLF).reverse ∧
      (∀ c ∈ (l.reverse.takeWhile isCRLF).reverse, isCRLF c = true) := by
  constructor
  · have h := List.takeWhile_append_dropWhile (p := isCRLF) (l := l.reverse)
    calc l = l.reverse.reverse := (List.reverse_reverse l).symm
    _ = (l.reverse.takeWhile isCRLF ++ l.reverse.dropWhile isCRLF).reverse := by
        rw [h]
    _ = rstrip_crlf l ++ (l.reverse.takeWhile isCRLF).reverse := by
        rw [List.reverse_append]; rfl
  · intro c hc
    exact List.mem_takeWhile_imp (List.mem_reverse.1 hc)

theorem mem_rstrip_crlf {c : Char} {l : List Char}
    (hc : c ∈ rstrip_crlf l) : c ∈ l := by
  unfold rstrip_crlf at hc
  have := List.mem_reverse.1 hc
  exact List.mem_reverse.1 ((List.dropWhile_sublist _).subset this)

/-- A matched line has all its non-trailing-CR/LF characters allowed. -/
theorem match_imp_rstrip_allowed {l : List Char}
    (h : line_pattern_match l = true) :
    ∀ c ∈ rstrip_crlf l, isAllowedChar c = true := by
  rcases (line_pattern_match_iff l).1 h with ⟨a, b, rfl, ha, hb⟩
  intro c hc
  rw [rstrip_crlf_append_crlf a hb] at hc
  exact ha c (mem_rstrip_crlf hc)

/-- Conversely, if all non-trailing-CR/LF characters are allowed the
pattern matches. -/
theorem rstrip_allowed_imp_match {l : List Char}
    (h : ∀ c ∈ rstrip_crlf l, isAllowedChar c = true) :
    line_pattern_match l = true := by
  obtain ⟨hsplit, hcrlf⟩ := rstrip_crlf_split l
  exact (line_pattern_match_iff l).2
    ⟨rstrip_crlf l, (l.reverse.takeWhile isCRLF).reverse, hsplit, h, hcrlf⟩

theorem validate_line_fst_some (l : List Char)
    (h : line_pattern_match l = true) : validate_line l = (some l, []) := by
  simp [validate_line, h]

theorem validate_line_fst_none (l : List Char)
    (h : line_pattern_match l = false) :
    validate_line l = (none, [rstrip_crlf l]) := by
  simp [validate_line, h]

/-- A CR/LF character inside a matched line is followed only by CR/LF
characters. -/
theorem match_crlf_suffix {u v : List Char} {c : Char}
    (h : line_pattern_match (u ++ c :: v) = true) (hc : isCRLF c = true) :
    ∀ d ∈ v, isCRLF d = true := by
  rcases (line_pattern_match_iff _).1 h with ⟨a, b, heq, ha, hb⟩
  rcases List.append_eq_append_iff.1 heq with ⟨t, hat, hcv⟩ | ⟨t, _, hbt⟩
  · cases t with
    | nil =>
        have hbv : b = c :: v := by simpa using hcv.symm
        intro d hd
        exact hb d (hbv ▸ List.mem_cons_of_mem c hd)
    | cons x t' =>
        rw [List.cons_append] at hcv
        injection hcv with h1 _
        have hxa : x ∈ a := hat ▸ List.mem_append_right u (List.mem_cons_self x t')
        have hallow := isAllowedChar_not_crlf (ha x hxa)
        rw [← h1, hc] at hallow
        cases hallow
  · intro d hd
    exact hb d (hbt ▸ List.mem_append_right t (List.mem_cons_of_mem c hd))

/-- C1: `_validate_line` returns the line unchanged exactly when every
character of the line, excluding its trailing CR/LF block, belongs to the
allowed grammar of `LINE_PATTERN` (letters, digits, the punctuation
characters of the class, and space); on a line with any other character it
returns `none` and logs exactly one warning. -/
theorem validate_line_spec (l : List Char) :
    ((validate_line l).1 = some l ↔
      ∀ c ∈ rstrip_crlf l, isAllowedChar c = true) ∧
    ((∃ c ∈ rstrip_crlf l, isAllowedChar c = false) →
      (validate_line l).1 = none ∧ (validate_line l).2.length = 1) := by
  constructor
  · constructor
    · intro h
      cases hm : line_pattern_match l with
      | true => exact match_imp_rstrip_allowed hm
      | false => rw [validate_line_fst_none l hm] at h; simp at h
    · intro h
      rw [validate_line_fst_some l (rstrip_allowed_imp_match h)]
  · rintro ⟨c, hc, hcf⟩
    have hm : line_pattern_match l = false := by
      cases hm : line_pattern_match l with
      | false => rfl
      | true =>
          have := match_imp_rstrip_allowed hm c hc
          simp [this] at hcf
    rw [validate_line_fst_none l hm]
    exact ⟨rfl, rfl⟩

/-- C1 witness: the concrete line `"a;"` (a semicolon is not in the
grammar) is rejected with exactly one warning. -/
theorem validate_line_spec_witness :
    (validate_line ('a' :: ';' :: [])).1 = none ∧
      (validate_line ('a' :: ';' :: [])).2.length = 1 :=
  (validate_line_spec ('a' :: ';' :: [])).2 ⟨';', by decide, by decide⟩

/-- C10: the empty line and every line consisting solely of CR/LF
characters in any number and order pass `_validate_line` unchanged, while
a CR or LF followed anywhere later by a non-CR/LF character makes it
reject the whole line. -/
theorem validate_line_crlf_only :
    (validate_line []).1 = some [] ∧
    (∀ l : List Char, (∀ c ∈ l, isCRLF c = true) →
      (validate_line l).1 = some l) ∧
    (∀ (u v : List Char) (c d : Char), isCRLF c = true → isCRLF d = false →
      d ∈ v → (validate_line (u ++ c :: v)).1 = none) := by
  refine ⟨rfl, ?_, ?_⟩
  · intro l hl
    have hm : line_pattern_match l = true :=
      (line_pattern_match_iff l).2
        ⟨[], l, rfl, fun c hc => absurd hc (List.not_mem_nil c), hl⟩
    rw [validate_line_fst_some l hm]
  · intro u v c d hc hd hdv
    have hm : line_pattern_match (u ++ c :: v) = false := by
      cases hm : line_pattern_match (u ++ c :: v) with
      | false => rfl
      | true =>
          have := match_crlf_suffix hm hc d hdv
          simp [this] at hd
    rw [validate_line_fst_none _ hm]

/-- C10 witness: a LF before an ordinary character (the concrete line
`"\na"`) is rejected. -/
theorem validate_line_crlf_only_witness :
    (validate_line ('\n' :: 'a' :: [])).1 = none :=
  validate_line_crlf_only.2.2 [] ['a'] '\n' 'a' (by decide) (by decide)
    (by decide)

/-! ### The reader's `bytes.strip()` -/

theorem dropWhile_idem (p : Char → Bool) (l : List Char) :
    (l.dropWhile p).dropWhile p = l.dropWhile p := by
  induction l with
  | nil => rfl
  | cons x xs ih =>
      by_cases hx : p x = true
      · simp [List.dropWhile_cons, hx, ih]
      · simp [List.dropWhile_cons, hx]

theorem dropWhile_head_false {p : Char → Bool} {a : Char} {l : List Char}
    (h : (a :: l).dropWhile p = a :: l) : p a = false := by
  cases hpa : p a with
  | false => rfl
  | true =>
      rw [List.dropWhile_cons, if_pos hpa] at h
      have hlen := (List.dropWhile_sublist (p := p) (l := l)).length_le
      rw [h] at hlen
      simp at hlen

/-- Stripping a suffix cannot create a removable prefix: if a list has no
removable prefix, neither has its right-stripped form. -/
theorem rstrip_preserves_lstripped {p : Char → Bool} {l : List Char}
    (h : l.dropWhile p = l) :
    ((l.reverse.dropWhile p).reverse).dropWhile p =
      (l.reverse.dropWhile p).reverse := by
  cases hr : (l.reverse.dropWhile p).reverse with
  | nil => rfl
  | cons x r' =>
      have hsplit : l =
          (l.reverse.dropWhile p).reverse ++ (l.reverse.takeWhile p).reverse := by
        calc l = l.reverse.reverse := (List.reverse_reverse l).symm
        _ = (l.reverse.takeWhile p ++ l.reverse.dropWhile p).reverse := by
            rw [List.takeWhile_append_dropWhile]
        _ = _ := by rw [List.reverse_append]
      rw [hr, List.cons_append] at hsplit
      have hx : p x = false := by
        apply dropWhile_head_false (l := r' ++ (l.reverse.takeWhile p).reverse)
        rw [← hsplit]
        exact h
      simp [List.dropWhile_cons, hx]

/-- `bytes.strip()` deletes a whitespace prefix and a whitespace suffix
and changes nothing else. -/
theorem bytes_strip_split (raw : List Char) :
    ∃ pfx sfx, raw = pfx ++ bytes_strip raw ++ sfx ∧
      (∀ c ∈ pfx, isPyWhitespace c = true) ∧
      (∀ c ∈ sfx, isPyWhitespace c = true) := by
  refine ⟨raw.takeWhile isPyWhitespace,
    ((raw.dropWhile isPyWhitespace).reverse.takeWhile isPyWhitespace).reverse,
    ?_, fun c hc => List.mem_takeWhile_imp hc,
    fun c hc => List.mem_takeWhile_imp (List.mem_reverse.1 hc)⟩
  conv_lhs => rw [← List.takeWhile_append_dropWhile (p := isPyWhitespace)
    (l := raw)]
  rw [List.append_assoc]
  congr 1
  conv_lhs => rw [← List.reverse_reverse (raw.dropWhile isPyWhitespace),
    ← List.takeWhile_append_dropWhile (p := isPyWhitespace)
      (l := (raw.dropWhile isPyWhitespace).reverse)]
  rw [List.reverse_append]
  rfl

/-- C2 counterexample: for the raw serial line `" A\r\n"` the reader
pushes `"A"` — the leading space is removed too, because the source calls
`bytes.strip()` with no argument — whereas removing exactly the trailing
CR/LF characters would give `" A"`. -/
theorem read_push_changes_leading_space :
    (read_iter (.pending [(' ' :: 'A' :: '\r' :: '\n' :: [])])
        read_init).out_queue = ('A' :: []) :: [] ∧
    rstrip_crlf (' ' :: 'A' :: '\r' :: '\n' :: []) = ' ' :: 'A' :: [] ∧
    (read_iter (.pending [(' ' :: 'A' :: '\r' :: '\n' :: [])])
        read_init).out_queue ≠
      (rstrip_crlf (' ' :: 'A' :: '\r' :: '\n' :: [])) :: [] := by
  refine ⟨by decide, by decide, by decide⟩

/-- C2 amended: every raw line pushed by a pending-data iteration of
`DAQConnection.read` is the raw line with *all* leading and trailing ASCII
whitespace removed (Python `bytes.strip()`) and no interior character
changed: the pushed string is obtained by deleting one all-whitespace
prefix and one all-whitespace suffix, and the pushed string itself has no
leading or trailing whitespace left. -/
theorem read_push_strip_characterization (raw : List Char) (s : ReadState) :
    (read_iter (.pending [raw]) s).out_queue =
      s.out_queue ++ [bytes_strip raw] ∧
    (∃ pfx sfx, raw = pfx ++ bytes_strip raw ++ sfx ∧
      (∀ c ∈ pfx, isPyWhitespace c = true) ∧
      (∀ c ∈ sfx, isPyWhitespace c = true)) ∧
    (bytes_strip raw).dropWhile isPyWhitespace = bytes_strip raw ∧
    ((bytes_strip raw).reverse.dropWhile isPyWhitespace).reverse =
      bytes_strip raw := by
  refine ⟨rfl, bytes_strip_split raw, ?_, ?_⟩
  · exact rstrip_preserves_lstripped (dropWhile_idem isPyWhitespace raw)
  · show ((bytes_strip raw).reverse.dropWhile isPyWhitespace).reverse =
      bytes_strip raw
    unfold bytes_strip
    rw [List.reverse_reverse, dropWhile_idem]

/-! ### FIFO command path -/

theorem put_all_append (cs q : List (List Char)) : put_all cs q = q ++ cs := by
  induction cs generalizing q with
  | nil => simp [put_all]
  | cons c cs ih =>
      show put_all cs (put q c) = q ++ c :: cs
      rw [ih]
      simp [put]

theorem write_drain_eq_map (q : List (List Char)) :
    write_drain q = q.map (fun c => c ++ ['\r']) := by
  induction q with
  | nil => rfl
  | cons c rest ih => simp [write_drain, ih]

/-- C4: commands enqueued with `put` before any is consumed reach the
serial port in the same FIFO order, each written exactly once with a
single trailing CR appended; in particular `put("ST")` yields exactly the
one hardware write `"ST\r"`. -/
theorem put_write_fifo (cs : List (List Char)) :
    put_all cs [] = cs ∧
    write_drain (put_all cs []) = cs.map (fun c => c ++ ['\r']) ∧
    (write_drain (put_all cs [])).length = cs.length ∧
    write_drain (put [] ('S' :: 'T' :: [])) =
      ('S' :: 'T' :: '\r' :: []) :: [] := by
  have h1 : put_all cs [] = cs := by rw [put_all_append]; rfl
  refine ⟨h1, ?_, ?_, rfl⟩
  · rw [h1, write_drain_eq_map]
  · rw [h1, write_drain_eq_map, List.length_map]

/-! ### `get` on the local provider -/

theorem get_cons (l : List Char) (rest : List (List Char)) :
    get (l :: rest) = Except.ok ((validate_line l).1, rest) := rfl

/-- C8 counterexample: a non-blocking `get()` on the empty queue does not
return a non-error "no data" value — the call raises
`DAQIOError("Queue is empty")`. -/
theorem get_empty_raises_error :
    get [] = Except.error "Queue is empty" ∧
      (get ([] : List (List Char))).isOk = false :=
  ⟨rfl, rfl⟩

/-- C8 amended: a non-blocking `get()` on the empty queue raises the
dedicated `DAQIOError("Queue is empty")` exception — a distinct no-data
signal rather than a normal return — and this outcome is distinguishable
from the `none` result returned when a dequeued line fails validation. -/
theorem get_empty_distinct_signal (l : List Char) (rest : List (List Char))
    (h : (validate_line l).1 = none) :
    get ([] : List (List Char)) = Except.error "Queue is empty" ∧
    get (l :: rest) = Except.ok (none, rest) ∧
    get (l :: rest) ≠ get ([] : List (List Char)) := by
  refine ⟨rfl, ?_, ?_⟩
  · rw [get_cons, h]
  · rw [get_cons, h]
    exact fun hcon => Except.noConfusion hcon

/-- C8 witness at the concrete invalid line `"a;"`. -/
theorem get_empty_distinct_signal_witness :
    get (('a' :: ';' :: []) :: []) ≠ get ([] : List (List Char)) :=
  (get_empty_distinct_signal ('a' :: ';' :: []) [] (by decide)).2.2

/-- C9: a dequeued line that fails validation has already been removed
from the outbound queue when `none` is returned: `get` yields `none`
together with the remaining queue, which is exactly the old queue without
that occurrence, so no later `get` can return the rejected line. -/
theorem get_removes_invalid_line (l : List Char) (rest : List (List Char))
    (h : (validate_line l).1 = none) :
    get (l :: rest) = Except.ok (none, rest) := by
  rw [get_cons, h]

/-- C9 witness at the concrete invalid line `"a;"`. -/
theorem get_removes_invalid_line_witness :
    get (('a' :: ';' :: []) :: []) = Except.ok (none, []) :=
  get_removes_invalid_line ('a' :: ';' :: []) [] (by decide)

/-! ### Serial-port acquisition -/

/-- C6: if the discovery hook is neither on the search path nor at the
packaged fallback location, `get_serial_port` raises `OSError` on its
first iteration — no retry, no pause, independent of the available fuel;
if the hook resolves but opening the resolved device keeps failing, the
loop never signals an error and is still retrying after any number of
iterations, having slept the fixed 5-second pause exactly once per failed
attempt. -/
theorem get_serial_port_error_policy (env : AcqEnv) :
    (env.hook_on_path = false → env.fallback_exists = false →
      ∀ fuel, get_serial_port env (fuel + 1) 0 0 = .fatal 0) ∧
    ((env.hook_on_path || env.fallback_exists) = true →
      (∀ m, env.open_ok m = false) →
      ∀ fuel n k, get_serial_port env fuel n k = .exhausted (k + fuel)) := by
  constructor
  · intro h1 h2 fuel
    simp [get_serial_port, h1, h2]
  · intro hres hopen fuel
    induction fuel with
    | zero => intro n k; simp [get_serial_port]
    | succ f ih =>
        intro n k
        simp only [get_serial_port, hres, hopen, if_true, if_false,
          Bool.false_eq_true]
        rw [ih (n + 1) (k + 1)]
        exact congrArg AcqOutcome.exhausted (by omega)

/-- C6 witness: with both hook locations missing the loop is fatal at
once; with the hook present and the device always failing to open, three
iterations sleep three 5-second pauses and keep retrying. -/
theorem get_serial_port_error_policy_witness :
    get_serial_port ⟨false, false, fun _ => true⟩ 7 0 0 = .fatal 0 ∧
    get_serial_port ⟨true, false, fun _ => false⟩ 3 0 0 = .exhausted 3 :=
  ⟨(get_serial_port_error_policy ⟨false, false, fun _ => true⟩).1 rfl rfl 6,
   (get_serial_port_error_policy ⟨true, false, fun _ => false⟩).2 rfl
     (fun _ => rfl) 3 0 0⟩

/-! ### Backoff bounds -/

theorem min_le_max_sleep : min_sleep_time ≤ max_sleep_time := by
  norm_num [min_sleep_time, max_sleep_time]

theorem sleep_update_pending {t : ℚ} (h1 : min_sleep_time ≤ t)
    (h2 : t ≤ max_sleep_time) :
    min_sleep_time ≤ max (t / 2) min_sleep_time ∧
      max (t / 2) min_sleep_time ≤ max_sleep_time := by
  refine ⟨le_max_right _ _, max_le ?_ min_le_max_sleep⟩
  have h0 : (0 : ℚ) ≤ t := le_trans (by norm_num [min_sleep_time]) h1
  linarith

theorem sleep_update_idle {t : ℚ} (h1 : min_sleep_time ≤ t) :
    min_sleep_time ≤ min (3 / 2 * t) max_sleep_time ∧
      min (3 / 2 * t) max_sleep_time ≤ max_sleep_time := by
  refine ⟨le_min ?_ min_le_max_sleep, min_le_right _ _⟩
  have h0 : (0 : ℚ) ≤ t := le_trans (by norm_num [min_sleep_time]) h1
  linarith

theorem read_iter_sleep_bounds (ev : SerialEvent) {s : ReadState}
    (h1 : min_sleep_time ≤ s.sleep_time)
    (h2 : s.sleep_time ≤ max_sleep_time) :
    min_sleep_time ≤ (read_iter ev s).sleep_time ∧
      (read_iter ev s).sleep_time ≤ max_sleep_time := by
  cases ev with
  | pending lines => exact sleep_update_pending h1 h2
  | idle => exact sleep_update_idle h1
  | ioFault => exact ⟨h1, h2⟩

theorem read_run_sleep_bounds (evs : List SerialEvent) :
    ∀ s : ReadState, min_sleep_time ≤ s.sleep_time →
      s.sleep_time ≤ max_sleep_time →
      min_sleep_time ≤ (read_run evs s).sleep_time ∧
        (read_run evs s).sleep_time ≤ max_sleep_time := by
  induction evs with
  | nil => exact fun s h1 h2 => ⟨h1, h2⟩
  | cons ev evs ih =>
      intro s h1 h2
      show min_sleep_time ≤
          (read_run evs (if s.running = true then read_iter ev s else s)).sleep_time ∧
        (read_run evs
          (if s.running = true then read_iter ev s else s)).sleep_time ≤
          max_sleep_time
      by_cases hr : s.running = true
      · rw [if_pos hr]
        obtain ⟨j1, j2⟩ := read_iter_sleep_bounds ev h1 h2
        exact ih _ j1 j2
      · rw [if_neg hr]
        exact ih s h1 h2

theorem server_read_iter_sleep_bounds (ev : SerialEvent) {s : ServerState}
    (h1 : min_sleep_time ≤ s.sleep_time)
    (h2 : s.sleep_time ≤ max_sleep_time) :
    min_sleep_time ≤ (server_read_iter ev s).sleep_time ∧
      (server_read_iter ev s).sleep_time ≤ max_sleep_time := by
  cases ev with
  | pending lines => exact sleep_update_pending h1 h2
  | idle => exact sleep_update_idle h1
  | ioFault => exact ⟨h1, h2⟩

theorem server_read_steps_sleep_bounds (env : Nat → SerialEvent) :
    ∀ (n i : Nat) (s : ServerState), min_sleep_time ≤ s.sleep_time →
      s.sleep_time ≤ max_sleep_time →
      min_sleep_time ≤ (server_read_steps env n i s).sleep_time ∧
        (server_read_steps env n i s).sleep_time ≤ max_sleep_time := by
  intro n
  induction n with
  | zero => exact fun i s h1 h2 => ⟨h1, h2⟩
  | succ m ih =>
      intro i s h1 h2
      simp only [server_read_steps]
      by_cases hr : s.running = true
      · rw [if_pos hr]
        obtain ⟨j1, j2⟩ := server_read_iter_sleep_bounds (env i) h1 h2
        exact ih (i + 1) _ j1 j2
      · rw [if_neg hr]
        exact ⟨h1, h2⟩

/-- C5: a pending-data iteration halves the sleep interval with floor
`min_sleep_time` (10 ms) and an idle iteration multiplies it by 1.5 with
ceiling `max_sleep_time` (200 ms); starting from the initial 10 ms
interval, after any sequence of iterations of either reader loop the
computed interval stays within [10 ms, 200 ms]. -/
theorem backoff_in_bounds (evs : List SerialEvent) (env : Nat → SerialEvent)
    (n i : Nat) (ls : List (List Char)) (s : ReadState) :
    (read_iter (.pending ls) s).sleep_time =
      max (s.sleep_time / 2) min_sleep_time ∧
    (read_iter .idle s).sleep_time =
      min (3 / 2 * s.sleep_time) max_sleep_time ∧
    (min_sleep_time ≤ (read_run evs read_init).sleep_time ∧
      (read_run evs read_init).sleep_time ≤ max_sleep_time) ∧
    (min_sleep_time ≤ (server_read_steps env n i server_init).sleep_time ∧
      (server_read_steps env n i server_init).sleep_time ≤ max_sleep_time) :=
  ⟨rfl, rfl,
   read_run_sleep_bounds evs read_init le_rfl min_le_max_sleep,
   server_read_steps_sleep_bounds env n i server_init le_rfl min_le_max_sleep⟩

/-! ### Fault recovery in `DAQConnection.read` -/

/-- C7: an `IOError`/`OSError` raised while reading the serial link is
caught by the loop body's handler — the body signals the fault, the
handler logs it, closes and reacquires the link and leaves the loop
running with the queue intact — and on the next iteration the reacquired
link delivers data normally, without recreating the provider. -/
theorem read_recovers_from_io_fault (s : ReadState) (l : List Char)
    (h : s.running = true) :
    read_body .ioFault s = Except.error () ∧
    read_iter .ioFault s = read_recover s ∧
    (read_iter .ioFault s).error_log = s.error_log + 1 ∧
    (read_iter .ioFault s).link_gen = s.link_gen + 1 ∧
    (read_iter .ioFault s).link_open = true ∧
    (read_iter .ioFault s).running = true ∧
    (read_iter .ioFault s).out_queue = s.out_queue ∧
    (read_run (.ioFault :: .pending [l] :: []) s).out_queue =
      s.out_queue ++ [bytes_strip l] := by
  refine ⟨rfl, rfl, rfl, rfl, rfl, h, rfl, ?_⟩
  have hrun : (read_iter SerialEvent.ioFault s).running = true := h
  simp only [read_run, List.foldl]
  rw [if_pos h, if_pos hrun]
  rfl

/-- C7 witness at the initial state and the concrete line `"A"`. -/
theorem read_recovers_from_io_fault_witness :
    (read_run (SerialEvent.ioFault :: SerialEvent.pending [('A' :: [])] :: [])
        read_init).out_queue =
      read_init.out_queue ++ [bytes_strip ('A' :: [])] :=
  (read_recovers_from_io_fault read_init ('A' :: []) rfl).2.2.2.2.2.2.2

/-! ### The server's serve loop -/

theorem server_read_iter_running (ev : SerialEvent) (s : ServerState) :
    (server_read_iter ev s).running = s.running := by
  cases ev <;> rfl

theorem server_read_iter_serial_writes (ev : SerialEvent) (s : ServerState) :
    (server_read_iter ev s).serial_writes = s.serial_writes := by
  cases ev <;> rfl

theorem server_read_iter_socket_in (ev : SerialEvent) (s : ServerState) :
    (server_read_iter ev s).socket_in = s.socket_in := by
  cases ev <;> rfl

/-- Nothing in the `DAQServer.read` loop body clears the running flag, so
the `while self.running:` loop never exits on any fuel. -/
theorem server_read_stuck (env : Nat → SerialEvent) :
    ∀ (fuel i : Nat) (s : ServerState), s.running = true →
      server_read env fuel i s = none := by
  intro fuel
  induction fuel with
  | zero => intro i s _; rfl
  | succ f ih =>
      intro i s h
      simp only [server_read]
      rw [if_pos h]
      exact ih (i + 1) _ (by rw [server_read_iter_running]; exact h)

theorem serve_stuck (env : Nat → SerialEvent) :
    ∀ (fuel i : Nat) (s : ServerState), s.running = true →
      serve env fuel i s = none := by
  intro fuel
  cases fuel with
  | zero => intro i s _; rfl
  | succ f =>
      intro i s h
      simp only [serve]
      rw [server_read_stuck env f i s h]

theorem server_read_steps_frame (env : Nat → SerialEvent) :
    ∀ (n i : Nat) (s : ServerState),
      (server_read_steps env n i s).serial_writes = s.serial_writes ∧
        (server_read_steps env n i s).socket_in = s.socket_in := by
  intro n
  induction n with
  | zero => exact fun i s => ⟨rfl, rfl⟩
  | succ m ih =>
      intro i s
      simp only [server_read_steps]
      by_cases hr : s.running = true
      · rw [if_pos hr]
        obtain ⟨hw, hq⟩ := ih (i + 1) (server_read_iter (env i) s)
        rw [hw, hq, server_read_iter_serial_writes, server_read_iter_socket_in]
        exact ⟨rfl, rfl⟩
      · rw [if_neg hr]
        exact ⟨rfl, rfl⟩

/-- C3 (what the code actually does): while the running flag is set,
`DAQServer.read` — the first call in `serve`'s `while True:` body — never
returns, because it is itself a `while self.running:` loop and nothing in
its body clears the flag; consequently `serve` never reaches
`DAQServer.write`: after any number of iterations nothing has been
written to the serial link and every received socket message is still
pending, so the two directions never alternate. -/
theorem serve_never_reaches_write (env : Nat → SerialEvent) (s : ServerState)
    (h : s.running = true) :
    (∀ fuel i, server_read env fuel i s = none) ∧
    (∀ fuel i, serve env fuel i s = none) ∧
    (∀ n i, (server_read_steps env n i s).serial_writes = s.serial_writes ∧
      (server_read_steps env n i s).socket_in = s.socket_in) :=
  ⟨fun fuel i => server_read_stuck env fuel i s h,
   fun fuel i => serve_stuck env fuel i s h,
   fun n i => server_read_steps_frame env n i s⟩

/-- C3 witness: with one received socket message `"ST"` pending and an
idle serial link, the server makes no serial write and never consumes the
message. -/
theorem serve_never_reaches_write_witness :
    serve (fun _ => SerialEvent.idle) 5 0
      { server_init with socket_in := ('S' :: 'T' :: []) :: [] } = none ∧
    (server_read_steps (fun _ => SerialEvent.idle) 4 0
        { server_init with socket_in := ('S' :: 'T' :: []) :: [] }).serial_writes =
      [] ∧
    (server_read_steps (fun _ => SerialEvent.idle) 4 0
        { server_init with socket_in := ('S' :: 'T' :: []) :: [] }).socket_in =
      ('S' :: 'T' :: []) :: [] :=
  ⟨(serve_never_reaches_write (fun _ => SerialEvent.idle)
      { server_init with socket_in := ('S' :: 'T' :: []) :: [] } rfl).2.1 5 0,
   ((serve_never_reaches_write (fun _ => SerialEvent.idle)
      { server_init with socket_in := ('S' :: 'T' :: []) :: [] } rfl).2.2 4 0).1,
   ((serve_never_reaches_write (fun _ => SerialEvent.idle)
      { server_init with socket_in := ('S' :: 'T' :: []) :: [] } rfl).2.2 4 0).2⟩

end Muonic
